import Mathlib

/-!
Verification development for the do-in-time browser scheduler.

The repository is a Tauri application: a TypeScript/React frontend (under
`src/`) and a Rust scheduler backend (under `src-tauri/`, not part of the
snapshot).  The frontend definitions below are shallow embeddings of the
TypeScript sources (`src/utils/datetime.ts`, `src/hooks/useTasks.ts`,
`src/hooks/useSettings.ts`, `src/components/TaskList.tsx`).  The scheduler
core (Recurrence Calculator, Task Dispatcher, Scheduler Engine and the
creation-boundary validation) only exists in the backend, so those
definitions are modelled from the specification; each such definition says
so in its doc comment.

Conventions used throughout:
* instants on the UTC timeline are integers (seconds for the scheduler
  core, milliseconds for the JavaScript `Date` embedding);
* a civil (wall-clock) date-time is the `Instant` structure below;
* fallible calls are `Except`/`Option` values passed in explicitly.
-/

namespace DoInTime

/-- `RepeatInterval` from `src/types/task.ts` (daily/weekly/monthly). -/
inductive RepeatInterval where
  | daily
  | weekly
  | monthly
deriving DecidableEq

/-- `TaskStatus` from `src/types/task.ts`. -/
inductive TaskStatus where
  | pending
  | active
  | completed
  | failed
  | disabled
deriving DecidableEq

/-- `ExecutionAction` from `src/types/task.ts` (Open/Close). -/
inductive ExecutionAction where
  | Open
  | Close
deriving DecidableEq

/-- `BrowserType` from `src/types/task.ts`. -/
inductive BrowserType where
  | chrome
  | firefox
  | edge
  | safari
  | brave
  | opera
deriving DecidableEq

namespace Recurrence

/-- `RepeatConfig` from `src/types/task.ts`: interval plus the optional
series cutoffs.  `end_date` is an absolute UTC instant. -/
structure RepeatConfig where
  interval : RepeatInterval
  end_after : Option Nat
  end_date : Option Int
deriving DecidableEq

/-- Modelled from the spec: `series_exhausted(task, occurrence_index,
candidate_instant)` of the Recurrence Calculator (backend `src-tauri`
sources are not in the snapshot).  Per §4.1 it is true if `end_after` is
set and `occurrence_index ≥ end_after`, or if `end_date` is set and the
candidate instant is past `end_date`; the two cutoffs are checked
independently and either one exhausts the series (OR semantics).  The
task-level call reads these fields from the task's `RepeatConfig`. -/
def series_exhausted (cfg : RepeatConfig) (occurrence_index : Nat)
    (candidate_instant : Int) : Bool :=
  (match cfg.end_after with
   | some ea => decide (occurrence_index ≥ ea)
   | none => false) ||
  (match cfg.end_date with
   | some ed => decide (candidate_instant > ed)
   | none => false)

/-- Proleptic Gregorian leap-year rule. -/
def isLeap (y : Int) : Bool :=
  (y % 4 == 0 && y % 100 != 0) || y % 400 == 0

/-- Number of days in a month of the proleptic Gregorian calendar. -/
def daysInMonth (y m : Int) : Int :=
  if m = 2 then (if isLeap y then 29 else 28)
  else if m = 4 ∨ m = 6 ∨ m = 9 ∨ m = 11 then 30 else 31

/-- A civil UTC date-time, the working representation of the Recurrence
Calculator (the backend stores RFC 3339 strings; this is their parsed
content). -/
structure Instant where
  year : Int
  month : Int
  day : Int
  hour : Int
  minute : Int
  second : Int
deriving DecidableEq

/-- A civil date-time denotes a real calendar instant. -/
def Valid (p : Instant) : Prop :=
  1 ≤ p.month ∧ p.month ≤ 12 ∧
  1 ≤ p.day ∧ p.day ≤ daysInMonth p.year p.month ∧
  0 ≤ p.hour ∧ p.hour < 24 ∧
  0 ≤ p.minute ∧ p.minute < 60 ∧
  0 ≤ p.second ∧ p.second < 60

instance (p : Instant) : Decidable (Valid p) := by
  unfold Valid; infer_instance

/-- Days elapsed since 1970-01-01 of a civil date (Gregorian civil-to-day
conversion; `/` on `Int` is floor division for positive divisors, so no
sign fix-up is needed). -/
def daysFromCivil (y m d : Int) : Int :=
  let y2 := if m ≤ 2 then y - 1 else y
  let era := y2 / 400
  let yoe := y2 - era * 400
  let mp := (m + 9) % 12
  let doy := (153 * mp + 2) / 5 + d - 1
  let doe := yoe * 365 + yoe / 4 - yoe / 100 + doy
  era * 146097 + doe - 719468

/-- Seconds since the epoch 1970-01-01T00:00:00Z of a civil date-time:
the position of the instant on the UTC timeline. -/
def toSec (p : Instant) : Int :=
  86400 * daysFromCivil p.year p.month p.day +
    3600 * p.hour + 60 * p.minute + p.second

/-- The next calendar day, keeping the time of day. -/
def nextDay (p : Instant) : Instant :=
  if p.day < daysInMonth p.year p.month then { p with day := p.day + 1 }
  else if p.month < 12 then { p with month := p.month + 1, day := 1 }
  else { p with year := p.year + 1, month := 1, day := 1 }

/-- Advance a civil date-time by `n` calendar days. -/
def addDays : Nat → Instant → Instant
  | 0, p => p
  | Nat.succ n, p => addDays n (nextDay p)

/-- Modelled from the spec: the Monthly arm of the Recurrence Calculator
(backend sources are not in the snapshot).  Per §4.1 it adds one calendar
month and clamps the day-of-month to the last valid day of the target
month when the source day does not exist there. -/
def addMonthClamped (p : Instant) : Instant :=
  if p.month = 12 then
    { p with year := p.year + 1, month := 1,
             day := min p.day (daysInMonth (p.year + 1) 1) }
  else
    { p with month := p.month + 1,
             day := min p.day (daysInMonth p.year (p.month + 1)) }

/-- Modelled from the spec: `compute_next(previous_instant, interval)` of
the Recurrence Calculator (backend sources are not in the snapshot).
Per §4.1: Daily adds exactly 24 hours in UTC, Weekly adds 7×24 hours,
Monthly adds one calendar month with day-of-month clamping. -/
def compute_next (previous_instant : Instant) :
    RepeatInterval → Instant
  | RepeatInterval.daily => addDays 1 previous_instant
  | RepeatInterval.weekly => addDays 7 previous_instant
  | RepeatInterval.monthly => addMonthClamped previous_instant

theorem isLeap_true_iff (y : Int) :
    isLeap y = true ↔ (y % 4 = 0 ∧ y % 100 ≠ 0) ∨ y % 400 = 0 := by
  unfold isLeap
  simp [Bool.or_eq_true, Bool.and_eq_true, beq_iff_eq, bne_iff_ne]

theorem one_le_daysInMonth (y m : Int) : 1 ≤ daysInMonth y m := by
  unfold daysInMonth
  split_ifs <;> norm_num

theorem daysInMonth_le (y m : Int) : daysInMonth y m ≤ 31 := by
  unfold daysInMonth
  split_ifs <;> norm_num

theorem daysFromCivil_succ_day (y m d : Int) :
    daysFromCivil y m (d + 1) = daysFromCivil y m d + 1 := by
  unfold daysFromCivil
  rcases le_or_lt m 2 with h | h
  · simp only [if_pos h]
    omega
  · simp only [if_neg (not_le.mpr h)]
    omega

theorem daysFromCivil_feb_rollover (y : Int) :
    daysFromCivil y (2 + 1) 1 = daysFromCivil y 2 (daysInMonth y 2) + 1 := by
  unfold daysInMonth
  norm_num
  cases hb : isLeap y with
  | false =>
      unfold isLeap at hb
      simp only [Bool.or_eq_false_iff, Bool.and_eq_false_iff, beq_eq_false_iff_ne, ne_eq,
        bne_eq_false_iff_eq] at hb
      simp only [hb, if_false, Bool.false_eq_true]
      unfold daysFromCivil
      norm_num
      omega
  | true =>
      unfold isLeap at hb
      simp only [Bool.or_eq_true, Bool.and_eq_true, beq_iff_eq, bne_iff_ne, ne_eq] at hb
      simp only [hb, if_true]
      unfold daysFromCivil
      norm_num
      omega

theorem daysFromCivil_month_rollover (y m : Int) (h1 : 1 ≤ m) (h2 : m ≤ 11) :
    daysFromCivil y (m + 1) 1 = daysFromCivil y m (daysInMonth y m) + 1 := by
  have hfeb := daysFromCivil_feb_rollover y
  interval_cases m
  all_goals first
    | exact hfeb
    | (unfold daysFromCivil daysInMonth; norm_num; omega)

theorem daysFromCivil_year_rollover (y : Int) :
    daysFromCivil (y + 1) 1 1 = daysFromCivil y 12 31 + 1 := by
  unfold daysFromCivil
  norm_num
  omega

theorem toSec_nextDay (p : Instant) (hp : Valid p) :
    toSec (nextDay p) = toSec p + 86400 := by
  obtain ⟨hm1, hm2, hd1, hd2, hrest⟩ := hp
  unfold nextDay
  by_cases h1 : p.day < daysInMonth p.year p.month
  · simp only [if_pos h1]
    unfold toSec
    dsimp only
    rw [daysFromCivil_succ_day]
    ring
  · have hd : p.day = daysInMonth p.year p.month := le_antisymm hd2 (not_lt.mp h1)
    by_cases h2 : p.month < 12
    · simp only [if_neg h1, if_pos h2]
      unfold toSec
      dsimp only
      rw [hd, daysFromCivil_month_rollover p.year p.month hm1 (by omega)]
      ring
    · have hm : p.month = 12 := le_antisymm hm2 (not_lt.mp h2)
      simp only [if_neg h1, if_neg h2]
      unfold toSec
      dsimp only
      have h31 : p.day = 31 := by
        rw [hd, hm]; unfold daysInMonth; norm_num
      rw [h31, hm, daysFromCivil_year_rollover p.year]
      ring

theorem Valid_nextDay (p : Instant) (hp : Valid p) : Valid (nextDay p) := by
  obtain ⟨hm1, hm2, hd1, hd2, hrest⟩ := hp
  have hpos1 := one_le_daysInMonth p.year (p.month + 1)
  have hpos0 := one_le_daysInMonth (p.year + 1) 1
  unfold nextDay
  by_cases h1 : p.day < daysInMonth p.year p.month
  · simp only [if_pos h1]
    unfold Valid
    dsimp only
    exact ⟨hm1, hm2, by omega, by omega, hrest⟩
  · by_cases h2 : p.month < 12
    · simp only [if_neg h1, if_pos h2]
      unfold Valid
      dsimp only
      exact ⟨by omega, by omega, by omega, hpos1, hrest⟩
    · simp only [if_neg h1, if_neg h2]
      unfold Valid
      dsimp only
      exact ⟨by norm_num, by norm_num, by norm_num, hpos0, hrest⟩

theorem toSec_addDays (n : Nat) (p : Instant) (hp : Valid p) :
    toSec (addDays n p) = toSec p + n * 86400 ∧ Valid (addDays n p) := by
  induction n generalizing p with
  | zero => simpa [addDays] using hp
  | succ k ih =>
      have hnext := Valid_nextDay p hp
      have hsec := toSec_nextDay p hp
      have := ih (nextDay p) hnext
      refine ⟨?_, ?_⟩
      · simp only [addDays, this.1, hsec]
        push_cast
        ring
      · simpa [addDays] using this.2

end Recurrence

namespace Core

open Recurrence

/-- Modelled from the spec: the Task record owned by the Scheduler Engine
(§3; backend `src-tauri` sources are not in the snapshot).  Instants are
seconds on the UTC timeline.  Fields not consulted by the scheduling
logic (browser, profile, url, timezone, audit timestamps) are omitted
from the core model. -/
structure Task where
  id : Int
  name : String
  status : TaskStatus
  start_time : Int
  close_time : Option Int
  repeat_config : Option RepeatConfig
  execution_count : Nat
  next_open_execution : Option Int
  next_close_execution : Option Int
deriving DecidableEq

/-- `DispatchDecision` of the Task Dispatcher (§4.2). -/
inductive DispatchDecision where
  | NoAction
  | RunOpen
  | RunClose
  | RunOpenAndClose
deriving DecidableEq

/-- A scheduled instant is due when it is non-null and ≤ now (§4.2). -/
def dueAt (next : Option Int) (now : Int) : Bool :=
  match next with
  | some ts => decide (ts ≤ now)
  | none => false

/-- Modelled from the spec: `evaluate(task, now)` of the Task Dispatcher
(§4.2; backend sources are not in the snapshot).  A Disabled task is
always `NoAction` regardless of timestamps; otherwise the decision is
read off the two due flags. -/
def evaluate (task : Task) (now : Int) : DispatchDecision :=
  if task.status = TaskStatus.disabled then DispatchDecision.NoAction
  else
    match dueAt task.next_open_execution now, dueAt task.next_close_execution now with
    | true, true => DispatchDecision.RunOpenAndClose
    | true, false => DispatchDecision.RunOpen
    | false, true => DispatchDecision.RunClose
    | false, false => DispatchDecision.NoAction

/-- Modelled from the spec: the post-run update of one `next_*_execution`
field (§4.2): null for a one-shot task, otherwise advanced via the
Recurrence Calculator unless `series_exhausted` holds, in which case it
becomes null.  `nextFn` abstracts `compute_next` lifted to UTC seconds. -/
def advanceNext (nextFn : Int → RepeatInterval → Int)
    (cfg? : Option RepeatConfig) (newCount : Nat) (sched : Option Int) : Option Int :=
  match cfg?, sched with
  | some cfg, some prev =>
      let c := nextFn prev cfg.interval
      if series_exhausted cfg newCount c then none else some c
  | _, _ => none

/-- `TaskExecution` audit record from `src/types/task.ts` (success flag in
place of the `success`/`failed` string). -/
structure TaskExecution where
  task_id : Int
  executed_at : Int
  action : ExecutionAction
  success : Bool
deriving DecidableEq

/-- Modelled from the spec: processing of a single task inside one Engine
tick (§4.2, §4.3; backend sources are not in the snapshot).  `outcome`
is the Browser Actuator: it is consulted exactly once per attempted
action and each attempt appends one `TaskExecution` record.  Status
transitions follow §4.2: Failed only when an action failed and no
further occurrence is scheduled, Completed when both next fields are
null after a successful occurrence, Active otherwise. -/
def processTask (nextFn : Int → RepeatInterval → Int)
    (outcome : Int → ExecutionAction → Bool) (now : Int) (t : Task) :
    Task × List TaskExecution :=
  let d := evaluate t now
  if d = DispatchDecision.NoAction then (t, [])
  else
    let doOpen := d = DispatchDecision.RunOpen ∨ d = DispatchDecision.RunOpenAndClose
    let doClose := d = DispatchDecision.RunClose ∨ d = DispatchDecision.RunOpenAndClose
    let openOk := outcome t.id ExecutionAction.Open
    let closeOk := outcome t.id ExecutionAction.Close
    let recs :=
      (if doOpen then [TaskExecution.mk t.id now ExecutionAction.Open openOk] else []) ++
      (if doClose then [TaskExecution.mk t.id now ExecutionAction.Close closeOk] else [])
    let newCount := t.execution_count + 1
    let newOpen :=
      if doOpen then advanceNext nextFn t.repeat_config newCount t.next_open_execution
      else t.next_open_execution
    let newClose :=
      if doClose then advanceNext nextFn t.repeat_config newCount t.next_close_execution
      else t.next_close_execution
    let failedAny := (doOpen ∧ openOk = false) ∨ (doClose ∧ closeOk = false)
    let newStatus :=
      if newOpen = none ∧ newClose = none then
        (if failedAny then TaskStatus.failed else TaskStatus.completed)
      else TaskStatus.active
    ({ t with status := newStatus, execution_count := newCount,
              next_open_execution := newOpen, next_close_execution := newClose }, recs)

/-- One tick's handling of a single loaded task: only tasks whose status
is Pending or Active are evaluated (§4.3); all others are untouched and
cause no Actuator call. -/
def tickOne (nextFn : Int → RepeatInterval → Int)
    (outcome : Int → ExecutionAction → Bool) (now : Int) (t : Task) :
    Task × List TaskExecution :=
  if t.status = TaskStatus.pending ∨ t.status = TaskStatus.active
  then processTask nextFn outcome now t
  else (t, [])

/-- Modelled from the spec: one iteration of the Engine poll loop (§4.3;
backend sources are not in the snapshot).  Every task is handled
independently of the others; the tick returns the updated tasks and the
concatenated audit records. -/
def tick (nextFn : Int → RepeatInterval → Int)
    (outcome : Int → ExecutionAction → Bool) (now : Int) (tasks : List Task) :
    List Task × List TaskExecution :=
  ((tasks.map (tickOne nextFn outcome now)).map Prod.fst,
   ((tasks.map (tickOne nextFn outcome now)).map Prod.snd).flatten)

/-- Modelled from the spec: task creation (§4.3; backend sources are not
in the snapshot).  A task created before its start time is Pending,
otherwise Active; the next-open field is seeded with `start_time` and the
next-close field with the optional `close_time`. -/
def createTask (now : Int) (id : Int) (name : String) (start_time : Int)
    (close_time : Option Int) (cfg : Option RepeatConfig) : Task :=
  { id := id, name := name,
    status := if now < start_time then TaskStatus.pending else TaskStatus.active,
    start_time := start_time, close_time := close_time, repeat_config := cfg,
    execution_count := 0,
    next_open_execution := some start_time,
    next_close_execution := close_time }

/-- Modelled from the spec: the operations the core applies to a stored
task after creation (§4.3, §5): a Dispatcher/Engine tick, a user disable
(which nulls both next-execution fields, §3), and an explicit user
re-enable (which recomputes the next-execution fields from now forward). -/
inductive CoreOp where
  | dispatchTick (outcome : Int → ExecutionAction → Bool) (now : Int)
  | disableTask
  | enableTask (now : Int)

/-- Modelled from the spec: effect of one core operation on a task. -/
def applyOp (nextFn : Int → RepeatInterval → Int) (t : Task) : CoreOp → Task
  | CoreOp.dispatchTick outcome now => (tickOne nextFn outcome now t).fst
  | CoreOp.disableTask =>
      { t with status := TaskStatus.disabled,
               next_open_execution := none, next_close_execution := none }
  | CoreOp.enableTask now =>
      { t with status := if now < t.start_time then TaskStatus.pending else TaskStatus.active,
               next_open_execution := some (max t.start_time now),
               next_close_execution := t.close_time.map (fun c => max c now) }

/-- Task states reachable by the core: freshly created tasks and anything
obtained from them by core operations. -/
inductive Reachable (nextFn : Int → RepeatInterval → Int) : Task → Prop
  | created (now id : Int) (name : String) (start_time : Int)
      (close_time : Option Int) (cfg : Option RepeatConfig) :
      Reachable nextFn (createTask now id name start_time close_time cfg)
  | step (t : Task) (op : CoreOp) :
      Reachable nextFn t → Reachable nextFn (applyOp nextFn t op)

/-- Invariant of §3: a task in a terminal or disabled status has both
next-execution fields null. -/
def TerminalNullInvariant (t : Task) : Prop :=
  (t.status = TaskStatus.completed ∨ t.status = TaskStatus.failed ∨
      t.status = TaskStatus.disabled) →
    t.next_open_execution = none ∧ t.next_close_execution = none

theorem processTask_invariant (nextFn : Int → RepeatInterval → Int)
    (outcome : Int → ExecutionAction → Bool) (now : Int) (t : Task)
    (ht : TerminalNullInvariant t) :
    TerminalNullInvariant (processTask nextFn outcome now t).fst := by
  unfold processTask
  by_cases h : evaluate t now = DispatchDecision.NoAction
  · simpa [h] using ht
  · simp only [if_neg h]
    intro hstat
    dsimp only at hstat ⊢
    by_cases hnull :
        (if evaluate t now = DispatchDecision.RunOpen ∨
              evaluate t now = DispatchDecision.RunOpenAndClose then
            advanceNext nextFn t.repeat_config (t.execution_count + 1) t.next_open_execution
          else t.next_open_execution) = none ∧
        (if evaluate t now = DispatchDecision.RunClose ∨
              evaluate t now = DispatchDecision.RunOpenAndClose then
            advanceNext nextFn t.repeat_config (t.execution_count + 1) t.next_close_execution
          else t.next_close_execution) = none
    · exact hnull
    · simp only [if_neg hnull] at hstat
      rcases hstat with h1 | h1 | h1 <;> exact absurd h1 (by decide)

theorem tickOne_invariant (nextFn : Int → RepeatInterval → Int)
    (outcome : Int → ExecutionAction → Bool) (now : Int) (t : Task)
    (ht : TerminalNullInvariant t) :
    TerminalNullInvariant (tickOne nextFn outcome now t).fst := by
  unfold tickOne
  by_cases h : t.status = TaskStatus.pending ∨ t.status = TaskStatus.active
  · simpa [h] using processTask_invariant nextFn outcome now t ht
  · simpa [h] using ht

theorem reachable_invariant (nextFn : Int → RepeatInterval → Int) (t : Task)
    (h : Reachable nextFn t) : TerminalNullInvariant t := by
  induction h with
  | created now id name start_time close_time cfg =>
      intro hstat
      unfold createTask at hstat
      dsimp only at hstat
      by_cases hlt : now < start_time <;>
        simp only [hlt, if_true, if_false] at hstat <;>
        rcases hstat with h1 | h1 | h1 <;>
        cases h1
  | step t op ht ih =>
      cases op with
      | dispatchTick outcome now => exact tickOne_invariant nextFn outcome now t ih
      | disableTask => intro hstat; exact ⟨rfl, rfl⟩
      | enableTask now =>
          intro hstat
          unfold applyOp at hstat
          dsimp only at hstat
          by_cases hlt : now < t.start_time <;>
            simp only [if_pos, if_neg, hlt] at hstat <;>
            rcases hstat with h1 | h1 | h1 <;>
            exact absurd h1 (by decide)

/-- Modelled from the spec: the error taxonomy of the task creation and
update boundary (§7; the backend command handlers are not in the
snapshot, and the README states all inputs are validated server-side). -/
inductive ValidationError where
  | missingName
  | closeBeforeStart
  | malformedRecurrence
deriving DecidableEq

/-- Raw recurrence input as it arrives at the boundary: the interval is
`none` when the submitted interval token is not one of
daily/weekly/monthly, and `end_after` is a raw integer. -/
structure RawRecurrence where
  interval : Option RepeatInterval
  end_after : Option Int
  end_date : Option Int
deriving DecidableEq

/-- A raw recurrence is malformed when its interval is unrecognized or
its occurrence cutoff is below 1 (the form's lower bound). -/
def recurrenceMalformed (r : RawRecurrence) : Bool :=
  r.interval.isNone ||
  (match r.end_after with
   | some n => decide (n < 1)
   | none => false)

/-- A task record as submitted to the creation/update boundary. -/
structure TaskSubmission where
  name : String
  start_time : Int
  close_time : Option Int
  repeat_config : Option RawRecurrence
deriving DecidableEq

/-- Modelled from the spec: boundary validation (§7): missing name,
close time before start time, or malformed recurrence are rejected. -/
def validate_task (s : TaskSubmission) : Option ValidationError :=
  if s.name = "" then some ValidationError.missingName
  else if (match s.close_time with
           | some c => decide (c < s.start_time)
           | none => false)
  then some ValidationError.closeBeforeStart
  else if (match s.repeat_config with
           | some r => recurrenceMalformed r
           | none => false)
  then some ValidationError.malformedRecurrence
  else none

/-- Sanitized recurrence of a validated submission. -/
def toRepeatConfig (r : RawRecurrence) : Option RepeatConfig :=
  r.interval.map (fun iv => ⟨iv, r.end_after.map Int.toNat, r.end_date⟩)

/-- Modelled from the spec: the `create_task` boundary command: validate,
then build the stored task; a rejected submission yields the error. -/
def create_task (now id : Int) (s : TaskSubmission) : Except ValidationError Task :=
  match validate_task s with
  | some e => Except.error e
  | none =>
      Except.ok (createTask now id s.name s.start_time s.close_time
        (s.repeat_config.bind toRepeatConfig))

/-- Modelled from the spec: effect of a creation request on the schedule
(the task list the Engine loads every tick, §4.3): an accepted task is
appended, a rejected one leaves the schedule untouched. -/
def submitToSchedule (now id : Int) (sched : List Task) (s : TaskSubmission) :
    List Task :=
  match create_task now id s with
  | Except.ok t => sched ++ [t]
  | Except.error _ => sched

end Core

namespace Frontend

/-- `Task` as built by `TaskForm.handleSubmit` in
`src/components/TaskList.tsx` (these are exactly the fields the form
submits; `created_at`/`updated_at` are set at the Repository boundary).
Timestamps carry the numeric content of the UTC ISO strings
(milliseconds since the epoch). -/
structure Task where
  id : Option Nat
  name : String
  browser : BrowserType
  url : Option String
  allow_close_all : Bool
  browser_profile : Option String
  start_time : Int
  close_time : Option Int
  timezone : String
  repeat_config : Option Core.RawRecurrence
  execution_count : Nat
  status : TaskStatus
  next_open_execution : Option Int
  next_close_execution : Option Int
deriving DecidableEq

/-- The `formData` state of `TaskForm` in `src/components/TaskList.tsx`.
A datetime-local input is carried as its minute timestamp in the local
wall-clock (`none` models the empty string of an optional field), and
`repeatEndAfter` as the parsed positive integer of the text field. -/
structure TaskFormData where
  name : String
  browser : BrowserType
  url : String
  allowCloseAll : Bool
  browserProfile : String
  startTime : Int
  closeTime : Option Int
  timezone : String
  repeatEnabled : Bool
  repeatInterval : RepeatInterval
  repeatEndAfter : Option Int
  repeatEndDate : Option Int
deriving DecidableEq

/-- `localDatetimeStringToUtc` from `src/utils/datetime.ts`, numeric
content: `new Date(localDatetimeString).getTime()`.  A datetime-local
string is carried as its local minute timestamp.  `new Date` interprets
the string in the host timezone: the engine derives a single UTC offset
from the local wall time, so the host zone's parsing behavior is the
function `parseOfs` from local minutes to the chosen offset in minutes
(for the ambiguous repeated hour of a DST fall-back transition,
ECMA-262 mandates the offset in effect before the transition; a
fixed-offset zone is the constant function). -/
def localDatetimeStringToUtcMillis (parseOfs : Int → Int) (localMin : Int) : Int :=
  localMin * 60000 - parseOfs localMin * 60000

/-- `utcToLocalDatetimeString` from `src/utils/datetime.ts`, numeric
content: the "YYYY-MM-DDTHH:mm" string holds the local year/month/day/
hour/minute components of the instant, i.e. the local wall-clock minute
with seconds and milliseconds truncated away (floor division).  The host
timezone is the function `ofs` giving its UTC offset in minutes at each
UTC instant, which captures DST transitions (a fixed-offset zone is the
constant function). -/
def utcToLocalMinute (ofs : Int → Int) (tMs : Int) : Int :=
  (tMs + ofs tMs * 60000) / 60000

/-- The task record built by `TaskForm.handleSubmit`
(`src/components/TaskList.tsx`): empty optional strings become null,
datetime-local fields are converted with `localDatetimeStringToUtc`, and
bookkeeping fields are taken from `initialTask` when editing —
in particular `status` is `initialTask?.status || TaskStatus.Active`. -/
def handleSubmitTask (parseOfs : Int → Int) (initialTask : Option Task)
    (fd : TaskFormData) : Task :=
  { id := initialTask.bind (fun t => t.id),
    name := fd.name,
    browser := fd.browser,
    url := if fd.url = "" then none else some fd.url,
    allow_close_all := fd.allowCloseAll,
    browser_profile := if fd.browserProfile = "" then none else some fd.browserProfile,
    start_time := localDatetimeStringToUtcMillis parseOfs fd.startTime,
    close_time := fd.closeTime.map (localDatetimeStringToUtcMillis parseOfs),
    timezone := fd.timezone,
    repeat_config :=
      if fd.repeatEnabled then
        some ⟨some fd.repeatInterval, fd.repeatEndAfter,
              fd.repeatEndDate.map (localDatetimeStringToUtcMillis parseOfs)⟩
      else none,
    execution_count := (initialTask.map (fun t => t.execution_count)).getD 0,
    status := (initialTask.map (fun t => t.status)).getD TaskStatus.active,
    next_open_execution := initialTask.bind (fun t => t.next_open_execution),
    next_close_execution := initialTask.bind (fun t => t.next_close_execution) }

/-- Zero-padded two-digit rendering of a component. -/
def pad2 (n : Int) : String :=
  if n < 10 then "0" ++ toString n else toString n

/-- Zero-padded three-digit rendering of the millisecond component. -/
def pad3 (n : Int) : String :=
  if n < 10 then "00" ++ toString n
  else if n < 100 then "0" ++ toString n
  else toString n

/-- Civil date of a day number (days since 1970-01-01), the inverse
direction of `daysFromCivil`; used only to render ISO strings. -/
def civilFromDays (z0 : Int) : Int × Int × Int :=
  let z := z0 + 719468
  let era := z / 146097
  let doe := z - era * 146097
  let yoe := (doe - doe / 1460 + doe / 36524 - doe / 146096) / 365
  let y := yoe + era * 400
  let doy := doe - (365 * yoe + yoe / 4 - yoe / 100)
  let mp := (5 * doy + 2) / 153
  let d := doy - (153 * mp + 2) / 5 + 1
  let m := mp + (if mp < 10 then 3 else -9)
  (y + (if m ≤ 2 then 1 else 0), m, d)

/-- Body of the JavaScript `Date.prototype.toISOString` rendering
("YYYY-MM-DDTHH:mm:ss.sss"), without the final designator. -/
def toISOStringBody (tMs : Int) : String :=
  let days := tMs / 86400000
  let msod := tMs % 86400000
  let ymd := civilFromDays days
  toString ymd.1 ++ "-" ++ pad2 ymd.2.1 ++ "-" ++ pad2 ymd.2.2 ++
    "T" ++ pad2 (msod / 3600000) ++ ":" ++ pad2 (msod / 60000 % 60) ++
    ":" ++ pad2 (msod / 1000 % 60) ++ "." ++ pad3 (msod % 1000)

/-- JavaScript `Date.prototype.toISOString`: the UTC rendering always
carries the "Z" designator. -/
def toISOString (tMs : Int) : String :=
  toISOStringBody tMs ++ "Z"

/-- `localDatetimeStringToUtc` from `src/utils/datetime.ts`, string
result: `new Date(localDatetimeString).toISOString()`. -/
def localDatetimeStringToUtc (parseOfs : Int → Int) (localMin : Int) : String :=
  toISOString (localDatetimeStringToUtcMillis parseOfs localMin)

/-- `AppSettings` from `src/types/task.ts` (the four booleans initialized
in `useSettings`). -/
structure AppSettings where
  minimize_to_tray : Bool
  start_minimized : Bool
  show_notifications : Bool
  auto_start : Bool
deriving DecidableEq

/-- The local React state of `useSettings`: the held settings and the
error banner. -/
structure SettingsState where
  settings : AppSettings
  error : Option String
deriving DecidableEq

namespace useSettings

/-- `updateSettings` from `src/hooks/useSettings.ts`.  The two awaited
backend calls are passed in as their results: `updRes` for
`TauriTaskService.updateSettings(newSettings)` and `autoRes` for
`TauriTaskService.applyAutoStart(updated.auto_start)`.  The function
clears the error, optimistically sets the new settings, saves, and on a
save failure rolls the settings back and rethrows; on a save success it
applies auto-start only if that flag changed, and an auto-start failure
only sets a warning message without failing the operation.  Returned:
the final local state and the thrown/ok result. -/
def updateSettings (updRes : Except String AppSettings)
    (autoRes : Except String Unit) (st : SettingsState)
    (newSettings : AppSettings) : SettingsState × Except String Unit :=
  let previousSettings := st.settings
  match updRes with
  | Except.error e =>
      ({ settings := previousSettings, error := some e }, Except.error e)
  | Except.ok updated =>
      if updated.auto_start ≠ previousSettings.auto_start then
        match autoRes with
        | Except.error e2 =>
            ({ settings := newSettings,
               error := some ("Settings saved, but auto-start could not be configured: " ++ e2) },
             Except.ok ())
        | Except.ok _ => ({ settings := newSettings, error := none }, Except.ok ())
      else ({ settings := newSettings, error := none }, Except.ok ())

end useSettings

namespace useTasks

/-- The `setTasks` updater of `updateTask` in `src/hooks/useTasks.ts`:
`prev.map((t) => (t.id === id ? updated : t))`. -/
def updateTask (id : Nat) (updated : Task) (tasks : List Task) : List Task :=
  tasks.map (fun t => if t.id = some id then updated else t)

/-- The `setTasks` updater of `deleteTask` in `src/hooks/useTasks.ts`:
`prev.filter((t) => t.id !== id)`. -/
def deleteTask (id : Nat) (tasks : List Task) : List Task :=
  tasks.filter (fun t => t.id ≠ some id)

end useTasks

end Frontend

end DoInTime

namespace DoInTime

/-- C2 (amended): `series_exhausted` is true exactly when the `end_after`
cutoff (occurrence index ≥ end_after) or the `end_date` cutoff (candidate
instant past end_date) holds; consequently with `end_after = n` it is
true at occurrence index n, and false at index n − 1 provided the
end-date cutoff has not independently fired. -/
theorem series_exhausted_spec :
    ∀ (cfg : Recurrence.RepeatConfig) (i : Nat) (c : Int),
      (Recurrence.series_exhausted cfg i c = true ↔
        (∃ ea, cfg.end_after = some ea ∧ ea ≤ i) ∨
        (∃ ed, cfg.end_date = some ed ∧ ed < c)) ∧
      (∀ n, cfg.end_after = some n → n ≤ i →
        Recurrence.series_exhausted cfg i c = true) ∧
      (∀ n, cfg.end_after = some n → i + 1 = n →
        (cfg.end_date = none ∨ ∃ ed, cfg.end_date = some ed ∧ c ≤ ed) →
        Recurrence.series_exhausted cfg i c = false) := by
  intro cfg i c
  obtain ⟨iv, ea, ed⟩ := cfg
  unfold Recurrence.series_exhausted
  cases ea <;> cases ed <;>
    simp [ge_iff_le, gt_iff_lt] <;>
    omega

/-- A repeat configuration with both cutoffs set: at most one occurrence
and an end date already in the past. -/
def cfgBothCutoffs : Recurrence.RepeatConfig :=
  ⟨RepeatInterval.daily, some 1, some 0⟩

/-- C2 counterexample: the claim requires `series_exhausted` to be false
whenever the occurrence index equals `end_after − 1`, but with
`end_after = 1` and an already-passed `end_date = 0`, index 0 = 1 − 1 and
candidate instant 1 give true (the OR semantics of the end-date cutoff
override the end-after count). -/
theorem series_exhausted_claim_counterexample :
    cfgBothCutoffs.end_after = some 1 ∧
    Recurrence.series_exhausted cfgBothCutoffs (1 - 1) 1 = true := by
  exact ⟨rfl, rfl⟩

/-- A repeat configuration bounded only by an occurrence count of 2. -/
def cfgEndAfterTwo : Recurrence.RepeatConfig :=
  ⟨RepeatInterval.daily, some 2, none⟩

theorem series_exhausted_spec_witness :
    Recurrence.series_exhausted cfgEndAfterTwo 1 5 = false :=
  (series_exhausted_spec cfgEndAfterTwo 1 5).2.2 2 rfl rfl (Or.inl rfl)

/-- C3: on the UTC timeline `compute_next` adds exactly 24 hours for
Daily and 7×24 hours for Weekly; for Monthly it advances one calendar
month keeping the time of day, with the day-of-month clamped to the last
valid day of the target month; in particular from January 31 it lands in
February on day 28 (29 in a leap year) and never on March 3. -/
theorem compute_next_spec (p : Recurrence.Instant) (hp : Recurrence.Valid p) :
    Recurrence.toSec (Recurrence.compute_next p RepeatInterval.daily) =
        Recurrence.toSec p + 86400 ∧
    Recurrence.toSec (Recurrence.compute_next p RepeatInterval.weekly) =
        Recurrence.toSec p + 7 * 86400 ∧
    ((Recurrence.compute_next p RepeatInterval.monthly).month =
        (if p.month = 12 then 1 else p.month + 1) ∧
      (Recurrence.compute_next p RepeatInterval.monthly).year =
        (if p.month = 12 then p.year + 1 else p.year) ∧
      (Recurrence.compute_next p RepeatInterval.monthly).day =
        min p.day (Recurrence.daysInMonth
          (if p.month = 12 then p.year + 1 else p.year)
          (if p.month = 12 then 1 else p.month + 1)) ∧
      (Recurrence.compute_next p RepeatInterval.monthly).hour = p.hour ∧
      (Recurrence.compute_next p RepeatInterval.monthly).minute = p.minute ∧
      (Recurrence.compute_next p RepeatInterval.monthly).second = p.second) ∧
    (p.month = 1 → p.day = 31 →
      (Recurrence.compute_next p RepeatInterval.monthly).month = 2 ∧
      (Recurrence.compute_next p RepeatInterval.monthly).day =
        (if Recurrence.isLeap p.year then 29 else 28)) := by
  refine ⟨?_, ?_, ?_, ?_⟩
  · simpa using (Recurrence.toSec_addDays 1 p hp).1
  · have h := (Recurrence.toSec_addDays 7 p hp).1
    unfold Recurrence.compute_next
    rw [h]
    norm_num
  · unfold Recurrence.compute_next Recurrence.addMonthClamped
    by_cases hm : p.month = 12 <;>
      simp [hm]
  · intro h1 h31
    unfold Recurrence.compute_next Recurrence.addMonthClamped
    rw [if_neg (by rw [h1]; norm_num)]
    dsimp only
    refine ⟨by rw [h1]; norm_num, ?_⟩
    rw [h1, h31]
    unfold Recurrence.daysInMonth
    norm_num
    cases hb : Recurrence.isLeap p.year <;> simp [hb]

/-- January 31, 2025 (a non-leap year), 09:30:00 UTC. -/
def jan31 : Recurrence.Instant := ⟨2025, 1, 31, 9, 30, 0⟩

theorem compute_next_spec_witness :
    (Recurrence.compute_next jan31 RepeatInterval.monthly).month = 2 ∧
    (Recurrence.compute_next jan31 RepeatInterval.monthly).day =
      (if Recurrence.isLeap jan31.year then 29 else 28) :=
  (compute_next_spec jan31 (by decide)).2.2.2 rfl rfl

end DoInTime

namespace DoInTime

/-- C1: the Dispatcher maps a Disabled task to NoAction at every instant
regardless of its next-execution timestamps; an Engine tick leaves a
Disabled task untouched and produces no Actuator call and no audit
record for it (`tick` applies `tickOne` to every loaded task); and no
core operation other than the explicit user re-enable moves the status
away from Disabled. -/
theorem disabled_task_inert (nextFn : Int → RepeatInterval → Int)
    (outcome : Int → ExecutionAction → Bool) (now : Int) (t : Core.Task)
    (hdis : t.status = TaskStatus.disabled) :
    Core.evaluate t now = Core.DispatchDecision.NoAction ∧
    Core.tickOne nextFn outcome now t = (t, []) ∧
    (∀ op : Core.CoreOp, (∀ m, op ≠ Core.CoreOp.enableTask m) →
      (Core.applyOp nextFn t op).status = TaskStatus.disabled) := by
  have hno : ¬ (t.status = TaskStatus.pending ∨ t.status = TaskStatus.active) := by
    rintro (h | h) <;> rw [hdis] at h <;> cases h
  have htick : Core.tickOne nextFn outcome now t = (t, []) := by
    unfold Core.tickOne
    rw [if_neg hno]
  refine ⟨?_, htick, ?_⟩
  · unfold Core.evaluate
    rw [if_pos hdis]
  · intro op hop
    cases op with
    | dispatchTick o n =>
        show (Core.tickOne nextFn o n t).fst.status = TaskStatus.disabled
        unfold Core.tickOne
        rw [if_neg hno]
        exact hdis
    | disableTask => rfl
    | enableTask m => exact absurd rfl (hop m)

/-- A user-disabled task that would otherwise be overdue on both actions. -/
def disabledTask : Core.Task :=
  ⟨1, "news", TaskStatus.disabled, 0, some 10, none, 0, some 0, some 10⟩

theorem disabled_task_inert_witness :
    Core.evaluate disabledTask 100 = Core.DispatchDecision.NoAction :=
  (disabled_task_inert (fun prev _ => prev + 86400) (fun _ _ => true)
    100 disabledTask rfl).1

/-- C4: in every task state reachable by the core's operations (creation,
Dispatcher/Engine ticks, user disable, user re-enable), a task whose
status is Completed, Failed, or Disabled has both next-execution fields
null. -/
theorem reachable_terminal_null (nextFn : Int → RepeatInterval → Int)
    (t : Core.Task) (h : Core.Reachable nextFn t)
    (hstat : t.status = TaskStatus.completed ∨ t.status = TaskStatus.failed ∨
      t.status = TaskStatus.disabled) :
    t.next_open_execution = none ∧ t.next_close_execution = none :=
  Core.reachable_invariant nextFn t h hstat

theorem reachable_terminal_null_witness :
    (Core.applyOp (fun prev _ => prev + 86400)
        (Core.createTask 0 1 "news" 10 none none)
        Core.CoreOp.disableTask).next_open_execution = none ∧
    (Core.applyOp (fun prev _ => prev + 86400)
        (Core.createTask 0 1 "news" 10 none none)
        Core.CoreOp.disableTask).next_close_execution = none :=
  reachable_terminal_null (fun prev _ => prev + 86400) _
    (Core.Reachable.step _ Core.CoreOp.disableTask
      (Core.Reachable.created 0 1 "news" 10 none none))
    (Or.inr (Or.inr rfl))

end DoInTime

namespace DoInTime

theorem evaluate_open_due (t : Core.Task) (now : Int)
    (ht : t.status = TaskStatus.active)
    (hdue : Core.dueAt t.next_open_execution now = true) :
    Core.evaluate t now = Core.DispatchDecision.RunOpen ∨
    Core.evaluate t now = Core.DispatchDecision.RunOpenAndClose := by
  have hnd : ¬ (t.status = TaskStatus.disabled) := by
    rw [ht]; intro h; cases h
  unfold Core.evaluate
  rw [if_neg hnd, hdue]
  cases Core.dueAt t.next_close_execution now
  · exact Or.inl rfl
  · exact Or.inr rfl

theorem processTask_open_record (nextFn : Int → RepeatInterval → Int)
    (outcome : Int → ExecutionAction → Bool) (now : Int) (t : Core.Task)
    (ht : t.status = TaskStatus.active)
    (hdue : Core.dueAt t.next_open_execution now = true) :
    Core.TaskExecution.mk t.id now ExecutionAction.Open
        (outcome t.id ExecutionAction.Open) ∈
      (Core.processTask nextFn outcome now t).snd := by
  rcases evaluate_open_due t now ht hdue with hev | hev <;>
    · unfold Core.processTask
      rw [hev]
      simp

theorem processTask_outcome_local (nextFn : Int → RepeatInterval → Int)
    (o1 o2 : Int → ExecutionAction → Bool) (now : Int) (t : Core.Task)
    (h : o1 t.id = o2 t.id) :
    Core.processTask nextFn o1 now t = Core.processTask nextFn o2 now t := by
  unfold Core.processTask
  rw [h]

/-- C5: within one tick tasks are isolated failure domains: for two due
Active tasks where the first one's Actuator open call fails and the
second one's succeeds, the tick records a TaskExecution for each
attempted action (a failed one for the first task, a successful one for
the second), persists both per-task results, and the second task's
persisted result is exactly what it would be under any Actuator whose
answers for that task agree — the first task's failure cannot influence
it. -/
theorem tick_isolates_failures (nextFn : Int → RepeatInterval → Int)
    (outcome : Int → ExecutionAction → Bool) (now : Int) (a b : Core.Task)
    (ha : a.status = TaskStatus.active) (hb : b.status = TaskStatus.active)
    (hdueA : Core.dueAt a.next_open_execution now = true)
    (hdueB : Core.dueAt b.next_open_execution now = true)
    (hfailA : outcome a.id ExecutionAction.Open = false)
    (hokB : outcome b.id ExecutionAction.Open = true) :
    (Core.TaskExecution.mk a.id now ExecutionAction.Open false ∈
        (Core.tick nextFn outcome now [a, b]).snd) ∧
    (Core.TaskExecution.mk b.id now ExecutionAction.Open true ∈
        (Core.tick nextFn outcome now [a, b]).snd) ∧
    (Core.tick nextFn outcome now [a, b]).fst =
      [(Core.processTask nextFn outcome now a).fst,
       (Core.processTask nextFn outcome now b).fst] ∧
    (∀ outcome2 : Int → ExecutionAction → Bool,
      outcome2 b.id = outcome b.id →
      (Core.tick nextFn outcome2 now [a, b]).fst.getLast? =
        some (Core.processTask nextFn outcome now b).fst) := by
  have hone : Core.tickOne nextFn outcome now a =
      Core.processTask nextFn outcome now a := by
    unfold Core.tickOne
    rw [if_pos (Or.inr ha)]
  have htwo : Core.tickOne nextFn outcome now b =
      Core.processTask nextFn outcome now b := by
    unfold Core.tickOne
    rw [if_pos (Or.inr hb)]
  have hrecA := processTask_open_record nextFn outcome now a ha hdueA
  have hrecB := processTask_open_record nextFn outcome now b hb hdueB
  rw [hfailA] at hrecA
  rw [hokB] at hrecB
  refine ⟨?_, ?_, ?_, ?_⟩
  · unfold Core.tick
    simp only [List.map_cons, List.map_nil, hone, htwo, List.flatten,
      List.append_nil]
    exact List.mem_append.mpr (Or.inl hrecA)
  · unfold Core.tick
    simp only [List.map_cons, List.map_nil, hone, htwo, List.flatten,
      List.append_nil]
    exact List.mem_append.mpr (Or.inr hrecB)
  · unfold Core.tick
    simp only [List.map_cons, List.map_nil, hone, htwo]
  · intro outcome2 h2
    have htwo2 : Core.tickOne nextFn outcome2 now b =
        Core.processTask nextFn outcome now b := by
      unfold Core.tickOne
      rw [if_pos (Or.inr hb)]
      exact processTask_outcome_local nextFn outcome2 outcome now b h2
    unfold Core.tick
    simp only [List.map_cons, List.map_nil, htwo2]
    rfl

/-- An Active task, id 1, whose open action is due at instant 0. -/
def dueTaskA : Core.Task :=
  ⟨1, "first", TaskStatus.active, 0, none, none, 0, some 0, none⟩

/-- An Active task, id 2, whose open action is due at instant 0. -/
def dueTaskB : Core.Task :=
  ⟨2, "second", TaskStatus.active, 0, none, none, 0, some 0, none⟩

theorem tick_isolates_failures_witness :
    Core.TaskExecution.mk dueTaskB.id 0 ExecutionAction.Open true ∈
      (Core.tick (fun prev _ => prev + 86400)
        (fun i _ => decide (i = 2)) 0 [dueTaskA, dueTaskB]).snd :=
  (tick_isolates_failures (fun prev _ => prev + 86400)
    (fun i _ => decide (i = 2)) 0 dueTaskA dueTaskB rfl rfl rfl rfl rfl rfl).2.1

end DoInTime

namespace DoInTime

/-- A concrete form submission in a UTC environment (offset 0): start
time one minute after the epoch, no optional fields filled in. -/
def fdFuture : Frontend.TaskFormData :=
  ⟨"Morning news", BrowserType.chrome, "", false, "", 1, none, "UTC", false,
    RepeatInterval.daily, none, none⟩

/-- C6 counterexample: a task created through the form (`initialTask` is
null) with a start time strictly in the future — evaluated at now = 0,
start_time = 60000 ms — is submitted with status Active, not Pending:
`TaskForm.handleSubmit` assigns `initialTask?.status || TaskStatus.Active`
without consulting the start time. -/
theorem new_task_not_pending_counterexample :
    (0 : Int) < (Frontend.handleSubmitTask (fun _ => 0) none fdFuture).start_time ∧
    (Frontend.handleSubmitTask (fun _ => 0) none fdFuture).status ≠ TaskStatus.pending ∧
    (Frontend.handleSubmitTask (fun _ => 0) none fdFuture).status = TaskStatus.active := by
  refine ⟨by decide, by decide, rfl⟩

/-- C6 (amended): the form submits every newly created task with status
Active regardless of whether its start time has been reached; only an
edited task keeps its previous status.  Pending is never assigned at the
form boundary. -/
theorem handleSubmit_status (parseOfs : Int → Int) (fd : Frontend.TaskFormData) :
    (Frontend.handleSubmitTask parseOfs none fd).status = TaskStatus.active ∧
    ∀ t : Frontend.Task,
      (Frontend.handleSubmitTask parseOfs (some t) fd).status = t.status :=
  ⟨rfl, fun _ => rfl⟩

/-- C7: a submission with an empty name, or a close time strictly before
the start time, or a malformed recurrence, is rejected at the
creation/update boundary with a ValidationError; the schedule is
unchanged, so the rejected task is never evaluated by the Dispatcher nor
dispatched to the Actuator on any later tick. -/
theorem invalid_submission_rejected (now id : Int) (s : Core.TaskSubmission)
    (hbad : s.name = "" ∨
      (∃ c, s.close_time = some c ∧ c < s.start_time) ∨
      (∃ r, s.repeat_config = some r ∧ Core.recurrenceMalformed r = true)) :
    (∃ e, Core.create_task now id s = Except.error e) ∧
    (∀ sched, Core.submitToSchedule now id sched s = sched) ∧
    (∀ (nextFn : Int → RepeatInterval → Int)
        (outcome : Int → ExecutionAction → Bool) (m : Int)
        (sched : List Core.Task),
      Core.tick nextFn outcome m (Core.submitToSchedule now id sched s) =
        Core.tick nextFn outcome m sched) := by
  have hv : ∃ e, Core.validate_task s = some e := by
    unfold Core.validate_task
    split_ifs with h1 h2 h3
    · exact ⟨Core.ValidationError.missingName, rfl⟩
    · exact ⟨Core.ValidationError.closeBeforeStart, rfl⟩
    · exact ⟨Core.ValidationError.malformedRecurrence, rfl⟩
    · exfalso
      rcases hbad with hbn | ⟨c, hc, hlt⟩ | ⟨r, hr, hm⟩
      · exact h1 hbn
      · rw [hc] at h2
        simp only [decide_eq_true_eq] at h2
        exact h2 hlt
      · rw [hr] at h3
        exact h3 hm
  obtain ⟨e, he⟩ := hv
  have hct : Core.create_task now id s = Except.error e := by
    unfold Core.create_task
    rw [he]
  refine ⟨⟨e, hct⟩, ?_, ?_⟩
  · intro sched
    unfold Core.submitToSchedule
    rw [hct]
  · intro nextFn outcome m sched
    unfold Core.submitToSchedule
    rw [hct]

/-- A submission whose name is empty. -/
def emptyNameSubmission : Core.TaskSubmission := ⟨"", 0, none, none⟩

theorem invalid_submission_rejected_witness :
    ∃ e, Core.create_task 0 1 emptyNameSubmission = Except.error e :=
  (invalid_submission_rejected 0 1 emptyNameSubmission (Or.inl rfl)).1

/-- A DST fall-back host zone: UTC offset −240 minutes before the UTC
instant 21600000 ms (= minute 360) and −300 minutes from it on, the
shape of a clocks-go-back transition (e.g. EDT → EST). -/
def fallBackOfs : Int → Int :=
  fun tMs => if tMs < 21600000 then -240 else -300

/-- The parse-offset choice of `new Date` under `fallBackOfs`: local
minutes before 120 existed only under the pre-transition offset −240 or
fall in the repeated hour [60, 120), for which ECMA-262 mandates the
pre-transition offset; from local minute 120 on the offset is −300. -/
def fallBackParseOfs : Int → Int :=
  fun localMin => if localMin < 120 then -240 else -300

/-- C8 counterexample: under the fall-back zone the two minute-aligned
UTC instants 18000000 ms and 21600000 ms render to the same local minute
(60), so parsing that local string back — with the pre-transition offset
mandated for the repeated hour — returns 18000000 for both, and the
later instant 21600000 fails the claimed universal round-trip even
though it has zero seconds and milliseconds. -/
theorem datetime_utc_roundtrip_counterexample :
    (21600000 : Int) % 60000 = 0 ∧
    Frontend.utcToLocalMinute fallBackOfs 21600000 =
      Frontend.utcToLocalMinute fallBackOfs 18000000 ∧
    Frontend.localDatetimeStringToUtcMillis fallBackParseOfs
      (Frontend.utcToLocalMinute fallBackOfs 21600000) = 18000000 ∧
    Frontend.localDatetimeStringToUtcMillis fallBackParseOfs
      (Frontend.utcToLocalMinute fallBackOfs 21600000) ≠ 21600000 := by
  refine ⟨by decide, by decide, by decide, by decide⟩

/-- C8 (amended): `localDatetimeStringToUtc` always yields an ISO string
carrying the "Z" UTC designator; and for an instant with zero seconds
and milliseconds the local/UTC conversions round-trip at minute
precision exactly when the offset the host chooses while parsing the
rendered local string equals the offset in effect at the instant — in
particular they round-trip for every such instant under a fixed-offset
host zone.  (At a DST fall-back transition the repeated local hour makes
the two offsets differ for one of the two colliding instants, which
therefore does not round-trip.) -/
theorem datetime_utc_roundtrip_amended (ofs parseOfs : Int → Int)
    (tMs : Int) (h : tMs % 60000 = 0) :
    (∀ localMin : Int, ∃ p,
      Frontend.localDatetimeStringToUtc parseOfs localMin = p ++ "Z") ∧
    (Frontend.localDatetimeStringToUtcMillis parseOfs
        (Frontend.utcToLocalMinute ofs tMs) = tMs ↔
      parseOfs (Frontend.utcToLocalMinute ofs tMs) = ofs tMs) ∧
    (∀ o : Int,
      Frontend.localDatetimeStringToUtcMillis (fun _ => o)
        (Frontend.utcToLocalMinute (fun _ => o) tMs) = tMs) := by
  refine ⟨?_, ?_, ?_⟩
  · intro localMin
    exact ⟨Frontend.toISOStringBody
      (Frontend.localDatetimeStringToUtcMillis parseOfs localMin), rfl⟩
  · unfold Frontend.localDatetimeStringToUtcMillis Frontend.utcToLocalMinute
    omega
  · intro o
    unfold Frontend.localDatetimeStringToUtcMillis Frontend.utcToLocalMinute
    dsimp only
    omega

theorem datetime_utc_roundtrip_amended_witness :
    Frontend.localDatetimeStringToUtcMillis (fun _ => (120 : Int))
      (Frontend.utcToLocalMinute (fun _ => (120 : Int)) 180000) = 180000 :=
  (datetime_utc_roundtrip_amended (fun _ => 120) (fun _ => 120) 180000
    (by decide)).2.2 120

/-- C9: `updateSettings` is atomic with respect to persistence failure:
if the backend save throws, the locally held settings are restored to
their value before the call and the error is rethrown; if the save
succeeds but applying the changed auto-start flag fails, the saved
settings are kept (not rolled back) and only a warning message is set,
without failing the operation. -/
theorem updateSettings_atomic (st : Frontend.SettingsState)
    (newS : Frontend.AppSettings)
    (updRes : Except String Frontend.AppSettings)
    (autoRes : Except String Unit) :
    (∀ e, updRes = Except.error e →
      Frontend.useSettings.updateSettings updRes autoRes st newS =
        ({ settings := st.settings, error := some e }, Except.error e)) ∧
    (∀ u e2, updRes = Except.ok u →
      u.auto_start ≠ st.settings.auto_start →
      autoRes = Except.error e2 →
      Frontend.useSettings.updateSettings updRes autoRes st newS =
        ({ settings := newS,
           error := some ("Settings saved, but auto-start could not be configured: " ++ e2) },
         Except.ok ())) := by
  constructor
  · intro e he
    subst he
    rfl
  · intro u e2 hu hne ha
    subst hu
    subst ha
    unfold Frontend.useSettings.updateSettings
    dsimp only
    rw [if_pos hne]

theorem updateSettings_atomic_witness :
    Frontend.useSettings.updateSettings (Except.error "db down")
      (Except.ok ()) ⟨⟨false, false, false, false⟩, none⟩
      ⟨true, false, false, false⟩ =
      (⟨⟨false, false, false, false⟩, some "db down"⟩,
       Except.error "db down") :=
  (updateSettings_atomic ⟨⟨false, false, false, false⟩, none⟩
    ⟨true, false, false, false⟩ (Except.error "db down")
    (Except.ok ())).1 "db down" rfl

/-- C10: `updateTask` replaces exactly the entries whose id matches, in
place — same length, and the entry at every position is either the
update (when the id matched) or the untouched original — while
`deleteTask` removes exactly the entries with the given id: the result
is a sublist of the original (relative order preserved), entries with
the id occur zero times, and every other entry keeps its exact
multiplicity. -/
theorem useTasks_frame (id : Nat) (u : Frontend.Task)
    (tasks : List Frontend.Task) :
    (Frontend.useTasks.updateTask id u tasks).length = tasks.length ∧
    (∀ i : Nat, (Frontend.useTasks.updateTask id u tasks).get? i =
      (tasks.get? i).map (fun t => if t.id = some id then u else t)) ∧
    (Frontend.useTasks.deleteTask id tasks).Sublist tasks ∧
    (∀ t : Frontend.Task, t.id = some id →
      (Frontend.useTasks.deleteTask id tasks).count t = 0) ∧
    (∀ t : Frontend.Task, t.id ≠ some id →
      (Frontend.useTasks.deleteTask id tasks).count t = tasks.count t) := by
  refine ⟨?_, ?_, ?_, ?_, ?_⟩
  · simp [Frontend.useTasks.updateTask]
  · intro i
    simp [Frontend.useTasks.updateTask, List.get?_eq_getElem?]
  · exact List.filter_sublist tasks
  · intro t ht
    rw [List.count_eq_zero]
    intro hmem
    have := List.of_mem_filter hmem
    simp only [decide_eq_true_eq] at this
    exact this ht
  · intro t ht
    apply List.count_filter
    simpa using ht

/-- A two-element task list: ids 1 and 2, both otherwise identical. -/
def sampleTasks : List Frontend.Task :=
  [⟨some 1, "first", BrowserType.chrome, none, false, none, 0, none, "UTC",
      none, 0, TaskStatus.active, none, none⟩,
   ⟨some 2, "second", BrowserType.firefox, none, false, none, 0, none, "UTC",
      none, 0, TaskStatus.active, none, none⟩]

theorem useTasks_frame_witness :
    (Frontend.useTasks.deleteTask 1 sampleTasks).count
      ⟨some 2, "second", BrowserType.firefox, none, false, none, 0, none,
        "UTC", none, 0, TaskStatus.active, none, none⟩ =
    sampleTasks.count
      ⟨some 2, "second", BrowserType.firefox, none, false, none, 0, none,
        "UTC", none, 0, TaskStatus.active, none, none⟩ :=
  (useTasks_frame 1
    ⟨some 1, "updated", BrowserType.chrome, none, false, none, 0, none,
      "UTC", none, 0, TaskStatus.active, none, none⟩
    sampleTasks).2.2.2.2
    ⟨some 2, "second", BrowserType.firefox, none, false, none, 0, none,
      "UTC", none, 0, TaskStatus.active, none, none⟩ (by decide)

end DoInTime
